import Mathlib

/-!
Verification of the reprography billing application (`src/billing_app_1.py`).

The Flask route handlers are embedded shallowly as pure state-transition
functions over a `DB` snapshot holding the three relations (`Bill`,
`BillItem`, `Product`) declared by the SQLAlchemy models.  Machine floats
are modelled by `Rat`; Python `int(...)` / `float(...)` parsing of form
fields is modelled by explicit parsers on decimal numerals (`pyInt?`,
`pyFloat?`), with parse failure standing for the `ValueError` those calls
raise and a missing field (`Option.none`) standing for `KeyError`.
Database constraint violations raised at `flush`/`commit`
(`IntegrityError`: the foreign key on `bill_items.bill_id`, the unique
index on `bills.bill_display_id`, the `NOT NULL` on `bills.bill_date`,
the primary key on `products.item_code`) are modelled by explicit checks
at the points where the handler commits.
-/

namespace Billing

/-- Numeric value of a list of decimal digit characters, most significant
first (the usual positional fold). -/
def natOfDigits (cs : List Char) : Nat :=
  cs.foldl (fun a c => a * 10 + (c.toNat - 48)) 0

/-- Parse a nonempty all-digit character list; `none` otherwise. -/
def digitsToNat? (cs : List Char) : Option Nat :=
  if cs ≠ [] ∧ cs.all Char.isDigit then some (natOfDigits cs) else none

/-- Model of Python `int(s)` on optionally signed decimal numerals
(whitespace, underscores and other bases are outside the modelled
fragment); `none` models the `ValueError` raised on any other string. -/
def pyInt? (s : String) : Option Int :=
  match s.data with
  | '-' :: rest => (digitsToNat? rest).map (fun n => -(n : Int))
  | '+' :: rest => (digitsToNat? rest).map (fun n => (n : Int))
  | cs => (digitsToNat? cs).map (fun n => (n : Int))

/-- Parse the unsigned body of a Python float literal: digits, optionally
with a decimal point, at least one digit overall (`"5"`, `"5."`, `".5"`,
`"3.25"`). -/
def pyFloatBody? (cs : List Char) : Option Rat :=
  let intPart := cs.takeWhile Char.isDigit
  let rest := cs.dropWhile Char.isDigit
  match rest with
  | [] => if cs ≠ [] then some ((natOfDigits cs : Nat) : Rat) else none
  | '.' :: frac =>
    if frac.all Char.isDigit ∧ (intPart ≠ [] ∨ frac ≠ []) then
      some ((natOfDigits intPart : Rat) + (natOfDigits frac : Rat) / ((10 : Rat) ^ frac.length))
    else none
  | _ => none

/-- Model of Python `float(s)` on optionally signed decimal literals
(exponents, `inf`, `nan` are outside the modelled fragment); `none`
models the `ValueError` raised on any other string. -/
def pyFloat? (s : String) : Option Rat :=
  match s.data with
  | '-' :: rest => (pyFloatBody? rest).map Neg.neg
  | '+' :: rest => pyFloatBody? rest
  | cs => pyFloatBody? cs

/-- Row of the `bills` table.  Nullable `Text` columns are `Option String`
(`none` is SQL `NULL`); `bill_date` is declared `NOT NULL` but is kept as
`Option String` so that the handler `setattr`-ing an absent JSON value
onto it can be expressed, with the violation caught at commit. -/
structure Bill where
  id : Nat
  bill_display_id : Option String
  bill_date : Option String
  recipient : Option String
  prepared_by : Option String
  checked_by : Option String
  fic_reprography : Option String
  job_description : Option String
deriving DecidableEq, Repr

/-- Row of the `bill_items` table. -/
structure BillItem where
  id : Nat
  name : String
  units : Int
  rate : Rat
  amount : Rat
  bill_id : Nat
deriving DecidableEq, Repr

/-- Row of the `products` table; `item_code` is the (caller-supplied)
primary key. -/
structure Product where
  item_code : String
  item_name : String
  default_rate : Rat
deriving DecidableEq, Repr

/-- Snapshot of the persistent store: the three relations plus the
autoincrement counters backing the integer primary keys. -/
structure DB where
  bills : List Bill
  bill_items : List BillItem
  products : List Product
  next_bill_id : Nat
  next_item_id : Nat
deriving DecidableEq, Repr

/-- Catalog seeded by `init_db` when the `products` table is empty. -/
def sampleProducts : List Product :=
  [⟨"0000", "Custom Item", 0⟩,
   ⟨"0001", "A4 Plain Paper Ream", 350⟩,
   ⟨"0002", "Official Envelope (Pack of 100)", 150⟩,
   ⟨"0003", "Spiral Binding Service", 50⟩,
   ⟨"0004", "Color Printout (A4)", 10⟩]

/-- Store state right after `init_db` on a fresh database. -/
def seededDB : DB :=
  { bills := [], bill_items := [], products := sampleProducts,
    next_bill_id := 1, next_item_id := 1 }

/-- Replace the first element satisfying `p` by `f` applied to it
(mutation through the single ORM object returned by `.first()`). -/
def updateFirst (p : α → Bool) (f : α → α) : List α → List α
  | [] => []
  | x :: xs => if p x then f x :: xs else x :: updateFirst p f xs

-- ### Product API handlers

/-- JSON body accepted by `POST /api/products`; each field is `none` when
the key is absent from the request (Python `KeyError` on access).  Values
arrive as strings (the admin form serialises them with
`JSON.stringify`). -/
structure ProductData where
  item_code : Option String
  item_name : Option String
  default_rate : Option String
deriving DecidableEq, Repr

/-- Outcome of `create_product`: `created` is the 201 response,
`clientError` the 400 response produced by the `except (IntegrityError,
KeyError)` branch, `serverError` an exception the handler does not catch
(Flask turns it into a 500). -/
inductive CreateOutcome
  | created
  | clientError
  | serverError
deriving DecidableEq, Repr

/-- Handler for `POST /api/products` (`create_product`).  Missing keys
raise `KeyError` (caught, 400); a present but non-numeric
`default_rate` raises `ValueError` from `float(...)` (not caught, 500);
a duplicate `item_code` raises `IntegrityError` at commit (caught, 400,
rolled back); otherwise the row is inserted. -/
def create_product (data : ProductData) (db : DB) : DB × CreateOutcome :=
  match data.item_code, data.item_name, data.default_rate with
  | some code, some nm, some rs =>
    match pyFloat? rs with
    | some r =>
      if db.products.any (fun p => p.item_code = code) then
        (db, CreateOutcome.clientError)
      else
        ({ db with products := db.products ++ [⟨code, nm, r⟩] }, CreateOutcome.created)
    | none => (db, CreateOutcome.serverError)
  | _, _, _ => (db, CreateOutcome.clientError)

/-- JSON body accepted by `PUT /api/products/<code>`; both fields are
read with `data.get(...)`, so absence is not an error. -/
structure UpdateData where
  item_name : Option String
  default_rate : Option String
deriving DecidableEq, Repr

/-- Outcome of `update_product` / `delete_product`. -/
inductive ProdOutcome
  | success
  | notFound
  | forbidden
  | serverError
deriving DecidableEq, Repr

/-- Handler for `PUT /api/products/<item_code>` (`update_product`).
Unknown code gives the 404 branch; a supplied non-numeric
`default_rate` raises `ValueError` from `float(...)` (not caught, 500)
before any commit, so the store is unchanged; otherwise only the
supplied fields change on the first row matching the code. -/
def update_product (item_code : String) (data : UpdateData) (db : DB) : DB × ProdOutcome :=
  match db.products.find? (fun p => p.item_code = item_code) with
  | none => (db, ProdOutcome.notFound)
  | some p =>
    let newName := data.item_name.getD p.item_name
    match data.default_rate with
    | none =>
      let ps := updateFirst (fun q => q.item_code = item_code)
        (fun q => { q with item_name := newName, default_rate := p.default_rate }) db.products
      ({ db with products := ps }, ProdOutcome.success)
    | some rs =>
      match pyFloat? rs with
      | none => (db, ProdOutcome.serverError)
      | some r =>
        let ps := updateFirst (fun q => q.item_code = item_code)
          (fun q => { q with item_name := newName, default_rate := r }) db.products
        ({ db with products := ps }, ProdOutcome.success)

/-- Handler for `DELETE /api/products/<item_code>` (`delete_product`).
The reserved code `"0000"` is refused with 403 before the store is even
consulted; an absent code gives 404; otherwise the first matching row is
deleted. -/
def delete_product (item_code : String) (db : DB) : DB × ProdOutcome :=
  if item_code = "0000" then (db, ProdOutcome.forbidden)
  else
    match db.products.find? (fun p => p.item_code = item_code) with
    | some _ =>
      ({ db with products := db.products.eraseP (fun p => p.item_code = item_code) },
        ProdOutcome.success)
    | none => (db, ProdOutcome.notFound)

/-- Handler for `GET /api/products` and the catalog read in `index`:
products ordered by `item_code` ascending
(`order_by(Product.item_code.asc())`). -/
def listProducts (db : DB) : List Product :=
  db.products.insertionSort (fun a b => a.item_code ≤ b.item_code)

-- ### Bill handlers

/-- Python truthiness test `not bill.bill_display_id` on a nullable
`Text` column: `NULL` and the empty string are falsy. -/
def displayFalsy : Option String → Bool
  | none => true
  | some s => s = ""

/-- Unique-index check run by the store when a bill's `bill_display_id`
is written: `true` when some other row already holds the same non-NULL
value (SQLite treats `NULL`s as pairwise distinct). -/
def displayClash (db : DB) (selfId : Nat) (v : Option String) : Bool :=
  match v with
  | none => false
  | some s => db.bills.any (fun o => o.id ≠ selfId ∧ o.bill_display_id = some s)

/-- Form fields posted to `/add`; `none` models an absent key
(`KeyError` on `request.form[...]`). -/
structure AddForm where
  item_name : Option String
  units : Option String
  rate : Option String
  bill_id : Option String
deriving DecidableEq, Repr

/-- Handler for `POST /add` (`add_item`).  Every failure — a missing
form key (`KeyError`), a non-numeric `units`/`rate`/`bill_id`
(`ValueError`), or a `bill_id` that violates the foreign key to `bills`
(`IntegrityError` at commit) — is swallowed by the blanket
`except ... : pass`, leaving the store unchanged; otherwise a `BillItem`
with `amount = int(units) * float(rate)` is inserted.  No range or
emptiness validation is performed on `name`, `units` or `rate`. -/
def add_item (form : AddForm) (db : DB) : DB :=
  match form.item_name, form.units, form.rate, form.bill_id with
  | some nm, some us, some rs, some bs =>
    match pyInt? us, pyFloat? rs, pyInt? bs with
    | some u, some r, some b =>
      if db.bills.any (fun bl => (bl.id : Int) = b) then
        let item : BillItem :=
          { id := db.next_item_id, name := nm, units := u, rate := r,
            amount := u * r, bill_id := b.toNat }
        { db with bill_items := db.bill_items ++ [item],
                  next_item_id := db.next_item_id + 1 }
      else db
    | _, _, _ => db
  | _, _, _, _ => db

/-- Outcome of a handler whose only visible effects are a redirect or an
uncaught storage exception. -/
inductive NewBillOutcome
  | redirectIndex
  | serverError
deriving DecidableEq, Repr

/-- Handler for `GET /new` (`new_bill`): inserts a `Bill` with today's
date and `bill_display_id = ''`, flushes (which assigns the id and runs
the unique index against the transient `''` value), then overwrites the
display id with `str(id)` and commits (running the unique index against
the final value).  Either constraint violation aborts the transaction
with nothing persisted. -/
def new_bill (today : String) (db : DB) : DB × NewBillOutcome :=
  let nid := db.next_bill_id
  if db.bills.any (fun o => o.bill_display_id = some ("")) then
    (db, NewBillOutcome.serverError)
  else if db.bills.any (fun o => o.bill_display_id = some (Nat.repr nid)) then
    (db, NewBillOutcome.serverError)
  else
    let b : Bill :=
      { id := nid, bill_display_id := some (Nat.repr nid), bill_date := some today,
        recipient := none, prepared_by := none, checked_by := none,
        fic_reprography := none, job_description := none }
    ({ db with bills := db.bills ++ [b], next_bill_id := nid + 1 },
      NewBillOutcome.redirectIndex)

/-- JSON body posted to `/update_bill`; `none` models an absent key
(`data.get(...)` returns `None`).  The JavaScript client sends
`bill_id` from a `data-bill-id` attribute; it is modelled already
resolved to the integer key it selects. -/
structure PatchData where
  bill_id : Option Nat
  field : Option String
  value : Option String
deriving DecidableEq, Repr

/-- Outcome of `update_bill`: `success` is the JSON success response,
`clientError` the single 400 response returned both for a disallowed or
missing field and for an unknown `bill_id`, `serverError` an
`IntegrityError` at commit that the handler does not catch. -/
inductive PatchOutcome
  | success
  | clientError
  | serverError
deriving DecidableEq, Repr

/-- Allow-list of patchable bill attributes in `update_bill`. -/
def allowedFields : List String :=
  ["bill_display_id", "bill_date", "recipient", "prepared_by",
   "checked_by", "fic_reprography", "job_description"]

/-- Dynamic `setattr(bill, field, value)` restricted to the allow-listed
column names. -/
def setBillField (b : Bill) (field : String) (v : Option String) : Bill :=
  if field = "bill_display_id" then { b with bill_display_id := v }
  else if field = "bill_date" then { b with bill_date := v }
  else if field = "recipient" then { b with recipient := v }
  else if field = "prepared_by" then { b with prepared_by := v }
  else if field = "checked_by" then { b with checked_by := v }
  else if field = "fic_reprography" then { b with fic_reprography := v }
  else if field = "job_description" then { b with job_description := v }
  else b

/-- Handler for `POST /update_bill` (`update_bill`).  A field outside the
allow-list (or absent) and an unknown `bill_id` both fall through to the
same 400 response with the store untouched; on the happy path the
attribute is overwritten and committed, where the unique index on
`bill_display_id` or the `NOT NULL` on `bill_date` can still abort the
transaction (uncaught, 500, store unchanged). -/
def update_bill (data : PatchData) (db : DB) : DB × PatchOutcome :=
  match data.field with
  | none => (db, PatchOutcome.clientError)
  | some f =>
    if f ∈ allowedFields then
      match data.bill_id with
      | none => (db, PatchOutcome.clientError)
      | some bid =>
        match db.bills.find? (fun b => b.id = bid) with
        | none => (db, PatchOutcome.clientError)
        | some _ =>
          if f = "bill_display_id" ∧ displayClash db bid data.value then
            (db, PatchOutcome.serverError)
          else if f = "bill_date" ∧ data.value = none then
            (db, PatchOutcome.serverError)
          else
            ({ db with bills :=
                updateFirst (fun b => b.id = bid) (fun b => setBillField b f data.value) db.bills },
              PatchOutcome.success)
    else (db, PatchOutcome.clientError)

-- ### The index (current-bill) view

/-- Line-item dictionary built by `index` for rendering. -/
structure ItemView where
  id : Nat
  name : String
  units : Int
  rate : Rat
  amount : Rat
deriving DecidableEq, Repr

/-- Projection of a stored `BillItem` to its rendering dictionary. -/
def toItemView (i : BillItem) : ItemView :=
  { id := i.id, name := i.name, units := i.units, rate := i.rate, amount := i.amount }

/-- Query `db.query(Bill).order_by(Bill.id.desc()).first()`: the bill
with the highest id (the "current" bill). -/
def currentBill (db : DB) : Option Bill :=
  db.bills.foldl
    (fun acc b =>
      match acc with
      | none => some b
      | some a => if b.id > a.id then some b else some a)
    none

/-- Lazy display-id backfill performed by `index`: when
`bill_display_id` is falsy it becomes `str(bill.id)` and a write is
needed; the boolean reports whether a write (commit) happens. -/
def backfillDisplayId (b : Bill) : Bill × Bool :=
  if displayFalsy b.bill_display_id then
    ({ b with bill_display_id := some (Nat.repr b.id) }, true)
  else (b, false)

/-- Items relationship of a bill: the `bill_items` rows carrying its
foreign key, in insertion order. -/
def billItemsOf (db : DB) (billId : Nat) : List BillItem :=
  db.bill_items.filter (fun i => i.bill_id = billId)

/-- Total shown on the bill: `sum(item['amount'] for item in items)`. -/
def computeTotal (items : List ItemView) : Rat :=
  (items.map (fun i => i.amount)).sum

/-- Outcome of `GET /` (`index`): the rendered view (current bill, its
item dictionaries, their total), a redirect to `/new` when no bill
exists, or an uncaught storage failure from the backfill commit. -/
inductive IndexOutcome
  | view (bill : Bill) (items : List ItemView) (total : Rat)
  | redirectNew
  | serverError
deriving DecidableEq, Repr

/-- Handler for `GET /` (`index`): resolves the current bill (redirecting
to `/new` when there is none), backfills a falsy `bill_display_id` with
`str(id)` and commits that write (where the unique index can abort the
transaction), then renders the bill with its items and their total. -/
def index (db : DB) : DB × IndexOutcome :=
  match currentBill db with
  | none => (db, IndexOutcome.redirectNew)
  | some cb =>
    let bw := backfillDisplayId cb
    if bw.2 then
      if displayClash db cb.id bw.1.bill_display_id then
        (db, IndexOutcome.serverError)
      else
        let db2 := { db with bills := updateFirst (fun o => o.id = cb.id) (fun _ => bw.1) db.bills }
        let items := (billItemsOf db2 cb.id).map toItemView
        (db2, IndexOutcome.view bw.1 items (computeTotal items))
    else
      let items := (billItemsOf db cb.id).map toItemView
      (db, IndexOutcome.view cb items (computeTotal items))

-- ### Operation sequences and invariants

/-- Boolean check that an optional supplied `item_name` value, when
present, is not the empty string. -/
def nameFieldOk : Option String → Bool
  | none => true
  | some nm => nm != ""

/-- Catalog-mutating calls of the admin API, for stating properties of
arbitrary call sequences. -/
inductive CatalogOp
  | create (data : ProductData)
  | update (code : String) (data : UpdateData)
deriving DecidableEq, Repr

/-- State reached after one catalog API call. -/
def applyCatalogOp (db : DB) : CatalogOp → DB
  | CatalogOp.create data => (create_product data db).1
  | CatalogOp.update code data => (update_product code data db).1

/-- An admin call whose supplied `item_name` (if any) is non-empty. -/
def CatalogOp.nameOk : CatalogOp → Bool
  | CatalogOp.create data => nameFieldOk data.item_name
  | CatalogOp.update _ data => nameFieldOk data.item_name

/-- Bill-store calls of claim C7: `createBill` (the `/new` handler) and
the display-id-backfilling read (the `/` handler). -/
inductive BillPageOp
  | createBill (today : String)
  | readIndex
deriving DecidableEq, Repr

/-- State reached after one bill-page call. -/
def applyBillPageOp (db : DB) : BillPageOp → DB
  | BillPageOp.createBill today => (new_bill today db).1
  | BillPageOp.readIndex => (index db).1

/-- Any state-changing call of the application, for reachability
statements. -/
inductive AppOp
  | pageIndex
  | pageNewBill (today : String)
  | pageAddItem (form : AddForm)
  | pageUpdateBill (data : PatchData)
  | apiCreateProduct (data : ProductData)
  | apiUpdateProduct (code : String) (data : UpdateData)
  | apiDeleteProduct (code : String)
deriving DecidableEq, Repr

/-- State reached after one application request. -/
def applyAppOp (db : DB) : AppOp → DB
  | AppOp.pageIndex => (index db).1
  | AppOp.pageNewBill today => (new_bill today db).1
  | AppOp.pageAddItem form => add_item form db
  | AppOp.pageUpdateBill data => (update_bill data db).1
  | AppOp.apiCreateProduct data => (create_product data db).1
  | AppOp.apiUpdateProduct code data => (update_product code data db).1
  | AppOp.apiDeleteProduct code => (delete_product code db).1

/-- Structural invariant of the bill store: ids are pairwise distinct and
below the autoincrement counter, and no two rows with different ids hold
the same non-NULL `bill_display_id` (the unique index). -/
def BillsOk (db : DB) : Prop :=
  (db.bills.map (fun bl => bl.id)).Nodup ∧
  (∀ bl ∈ db.bills, bl.id < db.next_bill_id) ∧
  (∀ b1 ∈ db.bills, ∀ b2 ∈ db.bills, b1.id ≠ b2.id →
    ∀ s : String, b1.bill_display_id = some s → b2.bill_display_id ≠ some s)

/-- Invariant maintained by `new_bill`/`index` alone: `BillsOk` and,
moreover, every display id is exactly the stringified row id. -/
def DisplayInv (db : DB) : Prop :=
  BillsOk db ∧ ∀ bl ∈ db.bills, bl.bill_display_id = some (Nat.repr bl.id)

-- ### Concrete stores used by witnesses and counterexamples

/-- Demonstration bill. -/
def billOne : Bill :=
  { id := 1, bill_display_id := some ("1"), bill_date := some ("2026-01-01"),
    recipient := none, prepared_by := none, checked_by := none,
    fic_reprography := none, job_description := none }

/-- Demonstration store holding exactly `billOne` and the seeded
catalog. -/
def dbOne : DB :=
  { bills := [billOne], bill_items := [], products := sampleProducts,
    next_bill_id := 2, next_item_id := 1 }

/-- Second demonstration bill, with display id `"2"`. -/
def billTwo : Bill :=
  { id := 2, bill_display_id := some ("2"), bill_date := some ("2026-01-02"),
    recipient := none, prepared_by := none, checked_by := none,
    fic_reprography := none, job_description := none }

/-- Demonstration store holding two bills with display ids `"1"` and
`"2"`. -/
def dbTwo : DB :=
  { bills := [billOne, billTwo], bill_items := [], products := sampleProducts,
    next_bill_id := 3, next_item_id := 1 }

-- ### Facts about the decimal numerals produced by `str(id)` (`Nat.repr`)

theorem natOfDigits_append (cs : List Char) (c : Char) :
    natOfDigits (cs ++ [c]) = natOfDigits cs * 10 + (c.toNat - 48) := by
  simp [natOfDigits, List.foldl_append]

theorem digitChar_toNat_sub : ∀ k, k < 10 → (Nat.digitChar k).toNat - 48 = k := by decide

theorem toDigitsCore_append (fuel : Nat) :
    ∀ (n : Nat) (acc : List Char),
      Nat.toDigitsCore 10 fuel n acc = Nat.toDigitsCore 10 fuel n [] ++ acc := by
  induction fuel with
  | zero => intro n acc; simp [Nat.toDigitsCore]
  | succ f ih =>
    intro n acc
    simp only [Nat.toDigitsCore]
    by_cases h0 : n / 10 = 0
    · simp [h0]
    · rw [if_neg h0, if_neg h0, ih (n / 10) (Nat.digitChar (n % 10) :: acc),
        ih (n / 10) [Nat.digitChar (n % 10)]]
      simp

theorem decode_toDigitsCore : ∀ (fuel n : Nat), n < fuel →
    natOfDigits (Nat.toDigitsCore 10 fuel n []) = n := by
  intro fuel
  induction fuel with
  | zero => intro n h; exact absurd h (Nat.not_lt_zero n)
  | succ f ih =>
    intro n h
    simp only [Nat.toDigitsCore]
    by_cases h0 : n / 10 = 0
    · rw [if_pos h0]
      have hmod : (Nat.digitChar (n % 10)).toNat - 48 = n % 10 :=
        digitChar_toNat_sub (n % 10) (by omega)
      simp [natOfDigits, hmod]
      omega
    · rw [if_neg h0, toDigitsCore_append, natOfDigits_append,
        ih (n / 10) (by omega), digitChar_toNat_sub (n % 10) (by omega)]
      omega

theorem natOfDigits_repr (n : Nat) : natOfDigits (Nat.repr n).data = n := by
  have hdata : (Nat.repr n).data = Nat.toDigitsCore 10 (n + 1) n [] := rfl
  rw [hdata]
  exact decode_toDigitsCore (n + 1) n (Nat.lt_succ_self n)

theorem repr_injective : Function.Injective Nat.repr := by
  intro m n h
  have hdec : natOfDigits (Nat.repr m).data = natOfDigits (Nat.repr n).data := by rw [h]
  rwa [natOfDigits_repr, natOfDigits_repr] at hdec

theorem toDigitsCore_ne_nil (f n : Nat) : Nat.toDigitsCore 10 (f + 1) n [] ≠ [] := by
  simp only [Nat.toDigitsCore]
  by_cases h0 : n / 10 = 0
  · simp [h0]
  · rw [if_neg h0, toDigitsCore_append]
    simp

theorem repr_ne_empty (n : Nat) : Nat.repr n ≠ "" := by
  intro h
  have hdata : Nat.toDigitsCore 10 (n + 1) n [] = ([] : List Char) := congrArg String.data h
  exact toDigitsCore_ne_nil n n hdata

theorem displayFalsy_repr (n : Nat) : displayFalsy (some (Nat.repr n)) = false := by
  simp [displayFalsy, repr_ne_empty n]

-- ### List lemmas for the store mutations

theorem mem_updateFirst {α : Type} (p : α → Bool) (f : α → α) :
    ∀ (l : List α) (q : α), q ∈ updateFirst p f l → q ∈ l ∨ ∃ x ∈ l, p x ∧ q = f x := by
  intro l
  induction l with
  | nil => intro q h; cases h
  | cons a as ih =>
    intro q h
    by_cases hpa : p a
    · rw [updateFirst, if_pos hpa] at h
      rcases List.mem_cons.mp h with h | h
      · exact Or.inr ⟨a, List.mem_cons_self a as, hpa, h⟩
      · exact Or.inl (List.mem_cons_of_mem a h)
    · rw [updateFirst, if_neg hpa] at h
      rcases List.mem_cons.mp h with h | h
      · exact Or.inl (h ▸ List.mem_cons_self a as)
      · rcases ih q h with h2 | ⟨x, hx, hpx, hq⟩
        · exact Or.inl (List.mem_cons_of_mem a h2)
        · exact Or.inr ⟨x, List.mem_cons_of_mem a hx, hpx, hq⟩

theorem updateFirst_eq_map_of_nodup (f : Bill → Bill) (bid : Nat) :
    ∀ (l : List Bill), (l.map (fun b => b.id)).Nodup →
      updateFirst (fun b => b.id = bid) f l =
        l.map (fun b => if b.id = bid then f b else b) := by
  intro l
  induction l with
  | nil => intro _; rfl
  | cons a as ih =>
    intro hnd
    rw [List.map_cons, List.nodup_cons] at hnd
    by_cases ha : a.id = bid
    · rw [updateFirst, if_pos (by simp [ha]), List.map_cons, if_pos ha]
      have hid : ∀ b ∈ as, (if b.id = bid then f b else b) = b := by
        intro b hb
        have hbne : b.id ≠ bid := by
          intro hbid
          exact hnd.1 (ha ▸ hbid ▸ List.mem_map_of_mem (fun b => b.id) hb)
        simp [hbne]
      rw [List.map_congr_left hid]
      simp
    · rw [updateFirst, if_neg (by simp [ha]), List.map_cons, if_neg ha, ih hnd.2]

theorem eraseP_key_mem (code : String) (p : Product) :
    ∀ (l : List Product), (l.map (fun r => r.item_code)).Nodup →
      p ∈ l → p.item_code = code →
      ∀ q, q ∈ l.eraseP (fun r => r.item_code = code) ↔ q ∈ l ∧ q ≠ p := by
  intro l
  induction l with
  | nil => intro _ h; cases h
  | cons a as ih =>
    intro hnd hp hpc q
    rw [List.map_cons, List.nodup_cons] at hnd
    by_cases ha : a.item_code = code
    · have hpa : p = a := by
        rcases List.mem_cons.mp hp with h | h
        · exact h
        · exfalso
          apply hnd.1
          have hmem : p.item_code ∈ as.map (fun r => r.item_code) :=
            List.mem_map_of_mem (fun r => r.item_code) h
          rwa [hpc, ← ha] at hmem
      subst hpa
      have hbif : (p :: as).eraseP (fun r => r.item_code = code) = as := by
        simp [List.eraseP_cons, hpc]
      rw [hbif]
      constructor
      · intro hq
        refine ⟨List.mem_cons_of_mem p hq, fun hqp => ?_⟩
        apply hnd.1
        have hmem : q.item_code ∈ as.map (fun r => r.item_code) :=
          List.mem_map_of_mem (fun r => r.item_code) hq
        rwa [hqp] at hmem
      · intro ⟨hq, hqp⟩
        rcases List.mem_cons.mp hq with h | h
        · exact absurd h hqp
        · exact h
    · have hpas : p ∈ as := by
        rcases List.mem_cons.mp hp with h | h
        · exact absurd (h ▸ hpc) ha
        · exact h
      have hbif : (a :: as).eraseP (fun r => r.item_code = code) =
          a :: as.eraseP (fun r => r.item_code = code) := by
        simp [List.eraseP_cons, ha]
      rw [hbif]
      constructor
      · intro hq
        rcases List.mem_cons.mp hq with h | h
        · refine ⟨h ▸ List.mem_cons_self a as, ?_⟩
          intro hqp
          apply ha
          rw [← h, hqp]
          exact hpc
        · have hih := (ih hnd.2 hpas hpc q).mp h
          exact ⟨List.mem_cons_of_mem a hih.1, hih.2⟩
      · intro ⟨hq, hqp⟩
        rcases List.mem_cons.mp hq with h | h
        · exact h ▸ List.mem_cons_self a (as.eraseP (fun r => r.item_code = code))
        · exact List.mem_cons_of_mem a ((ih hnd.2 hpas hpc q).mpr ⟨h, hqp⟩)

-- ### Helper lemmas about `index`

theorem backfillDisplayId_id (b : Bill) : (backfillDisplayId b).1.id = b.id := by
  unfold backfillDisplayId
  split <;> rfl

theorem index_view_items (db : DB) (bl : Bill) (items : List ItemView) (total : Rat)
    (h : (index db).2 = IndexOutcome.view bl items total) :
    items = (billItemsOf db bl.id).map toItemView := by
  rcases hcb : currentBill db with _ | cb
  · simp [index, hcb] at h
  · simp only [index, hcb] at h
    by_cases hw : (backfillDisplayId cb).2 = true
    · rw [if_pos hw] at h
      by_cases hcl : displayClash db cb.id (backfillDisplayId cb).1.bill_display_id = true
      · rw [if_pos hcl] at h
        cases h
      · rw [if_neg hcl] at h
        replace h : IndexOutcome.view (backfillDisplayId cb).1
            ((billItemsOf { db with
                bills := updateFirst (fun o => o.id = cb.id) (fun _ => (backfillDisplayId cb).1) db.bills }
              cb.id).map toItemView)
            (computeTotal ((billItemsOf { db with
                bills := updateFirst (fun o => o.id = cb.id) (fun _ => (backfillDisplayId cb).1) db.bills }
              cb.id).map toItemView)) = IndexOutcome.view bl items total := h
        injection h with h1 h2 h3
        rw [← h2, ← h1, backfillDisplayId_id]
        rfl
    · rw [if_neg hw] at h
      replace h : IndexOutcome.view cb ((billItemsOf db cb.id).map toItemView)
          (computeTotal ((billItemsOf db cb.id).map toItemView)) =
            IndexOutcome.view bl items total := h
      injection h with h1 h2 h3
      rw [← h2, ← h1]

-- ### Claim C4

/-- C4: `deleteProduct` is decided in three exclusive cases: item code
`"0000"` always fails with Forbidden regardless of the catalog state;
any other absent code fails with NotFound; any other existing code
removes exactly that one record, leaving every other Product (and the
bill data) unchanged, so the next `listProducts` excludes it. -/
theorem delete_product_cases (db : DB) (code : String)
    (hnodup : (db.products.map (fun p => p.item_code)).Nodup) :
    (code = "0000" → delete_product code db = (db, ProdOutcome.forbidden)) ∧
    ((code ≠ "0000" ∧ ∀ p ∈ db.products, p.item_code ≠ code) →
      delete_product code db = (db, ProdOutcome.notFound)) ∧
    (code ≠ "0000" → ∀ p ∈ db.products, p.item_code = code →
      (delete_product code db).2 = ProdOutcome.success ∧
      (∀ q, q ∈ (delete_product code db).1.products ↔ q ∈ db.products ∧ q ≠ p) ∧
      (∀ q ∈ listProducts (delete_product code db).1, q.item_code ≠ code) ∧
      (delete_product code db).1.bills = db.bills ∧
      (delete_product code db).1.bill_items = db.bill_items) := by
  refine ⟨?_, ?_, ?_⟩
  · intro h
    simp [delete_product, h]
  · rintro ⟨h0, habs⟩
    have hf : db.products.find? (fun p => p.item_code = code) = none :=
      List.find?_eq_none.mpr (fun x hx => by simp [habs x hx])
    simp [delete_product, h0, hf]
  · intro h0 p hp hpc
    obtain ⟨r, hr⟩ : ∃ r, db.products.find? (fun p => p.item_code = code) = some r :=
      Option.isSome_iff_exists.mp (List.find?_isSome.mpr ⟨p, hp, by simp [hpc]⟩)
    have hres : delete_product code db =
        ({ db with products := db.products.eraseP (fun p => p.item_code = code) },
          ProdOutcome.success) := by
      simp [delete_product, h0, hr]
    rw [hres]
    refine ⟨rfl, eraseP_key_mem code p db.products hnodup hp hpc, ?_, rfl, rfl⟩
    intro q hq
    have hq2 : q ∈ db.products.eraseP (fun p2 => p2.item_code = code) := by
      have := hq
      simp only [listProducts] at this
      exact (List.mem_insertionSort (fun a b => a.item_code ≤ b.item_code)).mp this
    have hmem := (eraseP_key_mem code p db.products hnodup hp hpc q).mp hq2
    intro hqc
    exact hmem.2 (List.inj_on_of_nodup_map hnodup hmem.1 hp (by rw [hqc, hpc]))

/-- Witness instantiating `delete_product_cases` at the seeded catalog
for the reserved code and for the existing code `"0002"`. -/
theorem delete_product_cases_witness :
    delete_product ("0000") seededDB = (seededDB, ProdOutcome.forbidden) ∧
    (delete_product ("0002") seededDB).2 = ProdOutcome.success :=
  ⟨(delete_product_cases seededDB ("0000") (by decide)).1 rfl,
   ((delete_product_cases seededDB ("0002") (by decide)).2.2 (by decide)
      (⟨"0002", "Official Envelope (Pack of 100)", 150⟩ : Product)
      (of_decide_eq_true (by with_unfolding_all rfl)) rfl).1⟩

-- ### Claim C5

/-- C5 counterexample: `create_product` with a present but non-numeric
`default_rate` does NOT answer with the 400 client-error class the claim
requires; the `ValueError` from `float(...)` escapes the
`except (IntegrityError, KeyError)` handler (a 500-class server error),
though the catalog is indeed unchanged. -/
theorem create_product_nonnumeric_rate_counterexample :
    (create_product ⟨some ("9999"), some ("X"), some ("abc")⟩ seededDB).2 =
      CreateOutcome.serverError ∧
    (create_product ⟨some ("9999"), some ("X"), some ("abc")⟩ seededDB).2 ≠
      CreateOutcome.clientError ∧
    (create_product ⟨some ("9999"), some ("X"), some ("abc")⟩ seededDB).1 = seededDB := by
  with_unfolding_all exact ⟨rfl, by decide, rfl⟩

/-- C5 amended: `create_product` answers with the 400 client-error class
when `item_code` already exists (with a parseable rate) and when a
required field is missing; a present but non-numeric `default_rate`
instead escapes as an unhandled 500-class error; in every non-created
outcome the catalog (indeed the whole store) is unchanged — no partial
write. -/
theorem create_product_failure_modes (data : ProductData) (db : DB) :
    (∀ code rs r, data.item_code = some code → data.item_name ≠ none →
      data.default_rate = some rs → pyFloat? rs = some r →
      db.products.any (fun p => p.item_code = code) = true →
      create_product data db = (db, CreateOutcome.clientError)) ∧
    ((data.item_code = none ∨ data.item_name = none ∨ data.default_rate = none) →
      create_product data db = (db, CreateOutcome.clientError)) ∧
    (∀ rs, data.item_code ≠ none → data.item_name ≠ none →
      data.default_rate = some rs → pyFloat? rs = none →
      create_product data db = (db, CreateOutcome.serverError)) ∧
    ((create_product data db).2 ≠ CreateOutcome.created → (create_product data db).1 = db) := by
  obtain ⟨oc, onm, od⟩ := data
  refine ⟨?_, ?_, ?_, ?_⟩
  · rintro code rs r hc hn hr hpf hdup
    subst hc
    subst hr
    cases onm with
    | none => exact absurd rfl hn
    | some nm => simp [create_product, hpf, hdup]
  · rintro (h | h | h) <;> subst h
    · simp [create_product]
    · cases oc <;> simp [create_product]
    · cases oc <;> cases onm <;> simp [create_product]
  · rintro rs hc hn hr hpf
    subst hr
    cases oc with
    | none => exact absurd rfl hc
    | some code =>
      cases onm with
      | none => exact absurd rfl hn
      | some nm => simp [create_product, hpf]
  · intro hne
    cases oc with
    | none => simp [create_product]
    | some code =>
      cases onm with
      | none => simp [create_product]
      | some nm =>
        cases od with
        | none => simp [create_product]
        | some rs =>
          cases hpf : pyFloat? rs with
          | none => simp [create_product, hpf]
          | some r =>
            by_cases hdup : db.products.any (fun p => p.item_code = code) = true
            · simp [create_product, hpf, hdup]
            · simp [create_product, hpf, hdup] at hne

/-- Witness instantiating `create_product_failure_modes` at the seeded
catalog with the duplicate code `"0001"`. -/
theorem create_product_failure_modes_witness :
    create_product ⟨some ("0001"), some ("Y"), some ("5")⟩ seededDB =
      (seededDB, CreateOutcome.clientError) :=
  (create_product_failure_modes ⟨some ("0001"), some ("Y"), some ("5")⟩ seededDB).1
    ("0001") ("5") 5 rfl (by decide) rfl (by with_unfolding_all rfl) (by decide)

-- ### Claim C6

/-- C6 counterexample: one `create_product` call on the seeded catalog
with an empty `item_name` succeeds (201) and leaves a Product whose
`item_name` is the empty string — the handler only catches a missing
key, not an empty value. -/
theorem product_empty_name_counterexample :
    (create_product ⟨some ("9999"), some (""), some ("1")⟩ seededDB).2 =
      CreateOutcome.created ∧
    (⟨"9999", "", 1⟩ : Product) ∈
      (create_product ⟨some ("9999"), some (""), some ("1")⟩ seededDB).1.products ∧
    (⟨"9999", "", 1⟩ : Product).item_name = "" :=
  ⟨by with_unfolding_all rfl, of_decide_eq_true (by with_unfolding_all rfl), rfl⟩

/-- One catalog call whose supplied `item_name` (if any) is non-empty
keeps every product's name non-empty. -/
theorem applyCatalogOp_name_nonempty (db : DB) (op : CatalogOp)
    (hop : op.nameOk = true) (hdb : ∀ p ∈ db.products, p.item_name ≠ "") :
    ∀ p ∈ (applyCatalogOp db op).products, p.item_name ≠ "" := by
  cases op with
  | create data =>
    obtain ⟨oc, onm, od⟩ := data
    cases oc with
    | none => simpa [applyCatalogOp, create_product] using hdb
    | some code =>
      cases onm with
      | none => simpa [applyCatalogOp, create_product] using hdb
      | some nm =>
        cases od with
        | none => simpa [applyCatalogOp, create_product] using hdb
        | some rs =>
          have hnm : nm ≠ "" := by
            simpa [CatalogOp.nameOk, nameFieldOk] using hop
          cases hpf : pyFloat? rs with
          | none => simpa [applyCatalogOp, create_product, hpf] using hdb
          | some r =>
            by_cases hdup : db.products.any (fun p => p.item_code = code) = true
            · simpa [applyCatalogOp, create_product, hpf, hdup] using hdb
            · intro p hp
              simp only [applyCatalogOp, create_product, hpf] at hp
              rw [if_neg hdup] at hp
              rcases List.mem_append.mp hp with h | h
              · exact hdb p h
              · rcases List.mem_singleton.mp h with rfl
                exact hnm
  | update code data =>
    have hnm : ∀ nm, data.item_name = some nm → nm ≠ "" := by
      intro nm h
      cases data with
      | mk onm od => cases h; simpa [CatalogOp.nameOk, nameFieldOk] using hop
    intro p hp
    simp only [applyCatalogOp, update_product] at hp
    rcases hfind : db.products.find? (fun q => q.item_code = code) with _ | q0
    · rw [hfind] at hp
      exact hdb p hp
    · rw [hfind] at hp
      cases hdr : data.default_rate with
      | none =>
        simp only [hdr] at hp
        rcases mem_updateFirst _ _ db.products p hp with h | ⟨x, hx, _, rfl⟩
        · exact hdb p h
        · cases hin : data.item_name with
          | none =>
            simp [hin]
            exact hdb q0 (List.mem_of_find?_eq_some hfind)
          | some nm =>
            simp [hin]
            exact hnm nm hin
      | some rs =>
        cases hpf : pyFloat? rs with
        | none =>
          simp only [hdr, hpf] at hp
          exact hdb p hp
        | some r =>
          simp only [hdr, hpf] at hp
          rcases mem_updateFirst _ _ db.products p hp with h | ⟨x, hx, _, rfl⟩
          · exact hdb p h
          · cases hin : data.item_name with
            | none =>
              simp [hin]
              exact hdb q0 (List.mem_of_find?_eq_some hfind)
            | some nm =>
              simp [hin]
              exact hnm nm hin

/-- C6 amended: what holds is preservation, not enforcement — starting
from the seeded catalog, no sequence of `createProduct`/`updateProduct`
calls whose supplied `item_name` arguments are non-empty leaves a
Product with an empty `item_name`; but a call supplying an empty name is
accepted, so the invariant is not enforced by the code
(see the counterexample). -/
theorem catalog_item_name_nonempty (ops : List CatalogOp)
    (hops : ∀ op ∈ ops, op.nameOk = true) :
    ∀ p ∈ (ops.foldl applyCatalogOp seededDB).products, p.item_name ≠ "" := by
  suffices h : ∀ (ops2 : List CatalogOp) (db : DB), (∀ op ∈ ops2, op.nameOk = true) →
      (∀ p ∈ db.products, p.item_name ≠ "") →
      ∀ p ∈ (ops2.foldl applyCatalogOp db).products, p.item_name ≠ "" by
    exact h ops seededDB hops (by decide)
  intro ops2
  induction ops2 with
  | nil =>
    intro db _ hdb
    simpa using hdb
  | cons op rest ih =>
    intro db hops2 hdb
    simp only [List.foldl_cons]
    exact ih ((applyCatalogOp db op)) (fun o ho => hops2 o (List.mem_cons_of_mem op ho))
      (applyCatalogOp_name_nonempty db op (hops2 op (List.mem_cons_self op rest)) hdb)

/-- Witness instantiating `catalog_item_name_nonempty` on a one-call
sequence adding a product named `"Toner"`. -/
theorem catalog_item_name_nonempty_witness :
    (⟨"0000", "Custom Item", 0⟩ : Product).item_name ≠ "" :=
  catalog_item_name_nonempty
    [CatalogOp.create ⟨some ("7777"), some ("Toner"), some ("5")⟩]
    (by decide) (⟨"0000", "Custom Item", 0⟩ : Product)
    (of_decide_eq_true (by with_unfolding_all rfl))

-- ### Claim C1

/-- C1 counterexample: `/add` performs no range or emptiness validation:
with `units = "0"` (units ≤ 0) an item row IS created, and likewise with
an empty `name` and `rate = "-5"` (rate < 0) — the BillItem collection
changes, so the operation is not a no-op on these inputs the claim calls
invalid. -/
theorem add_item_no_validation_counterexample :
    (add_item ⟨some ("x"), some ("0"), some ("5"), some ("1")⟩ dbOne).bill_items ≠
      dbOne.bill_items ∧
    (add_item ⟨some (""), some ("1"), some ("-5"), some ("1")⟩ dbOne).bill_items ≠
      dbOne.bill_items := by
  with_unfolding_all exact ⟨by decide, by decide⟩

/-- C1 amended: the no-op guarantee holds exactly for the failures the
handler actually catches — a missing form key (`KeyError`), a
non-numeric `units`/`rate`/`bill_id` (`ValueError`), or a parsed
`bill_id` matching no existing Bill (`IntegrityError`); `units <= 0`,
`rate < 0` and an empty `name` are accepted and create an item (see the
counterexample). -/
theorem add_item_noop_on_caught_errors (form : AddForm) (db : DB)
    (h : form.item_name = none ∨ form.units = none ∨ form.rate = none ∨ form.bill_id = none ∨
      (∃ us, form.units = some us ∧ pyInt? us = none) ∨
      (∃ rs, form.rate = some rs ∧ pyFloat? rs = none) ∨
      (∃ bs, form.bill_id = some bs ∧ pyInt? bs = none) ∨
      (∃ bs b, form.bill_id = some bs ∧ pyInt? bs = some b ∧
        ∀ bl ∈ db.bills, (bl.id : Int) ≠ b)) :
    add_item form db = db := by
  obtain ⟨ona, ou, ora, ob⟩ := form
  cases ona with
  | none => simp [add_item]
  | some nm =>
    cases ou with
    | none => simp [add_item]
    | some us =>
      cases ora with
      | none => simp [add_item]
      | some rs =>
        cases ob with
        | none => simp [add_item]
        | some bs =>
          cases hpu : pyInt? us with
          | none => simp [add_item, hpu]
          | some u =>
            cases hpr : pyFloat? rs with
            | none => simp [add_item, hpu, hpr]
            | some r =>
              cases hpb : pyInt? bs with
              | none => simp [add_item, hpu, hpr, hpb]
              | some b =>
                rcases h with h | h | h | h | ⟨us2, hus2, hp⟩ | ⟨rs2, hrs2, hp⟩ |
                  ⟨bs2, hbs2, hp⟩ | ⟨bs2, b2, hbs2, hp, habs⟩
                · cases h
                · cases h
                · cases h
                · cases h
                · injection hus2 with he
                  rw [← he, hpu] at hp
                  cases hp
                · injection hrs2 with he
                  rw [← he, hpr] at hp
                  cases hp
                · injection hbs2 with he
                  rw [← he, hpb] at hp
                  cases hp
                · injection hbs2 with he
                  rw [← he, hpb] at hp
                  injection hp with he2
                  subst he2
                  have hnone : ¬∃ x ∈ db.bills, (x.id : Int) = b :=
                    fun ⟨bl, hbl, hbid⟩ => habs bl hbl hbid
                  simp [add_item, hpu, hpr, hpb, hnone]

/-- Witness instantiating `add_item_noop_on_caught_errors` at a request
missing the `item_name` key. -/
theorem add_item_noop_on_caught_errors_witness :
    add_item ⟨none, some ("1"), some ("1"), some ("1")⟩ dbOne = dbOne :=
  add_item_noop_on_caught_errors ⟨none, some ("1"), some ("1"), some ("1")⟩ dbOne (Or.inl rfl)

-- ### Claim C2

/-- C2: for every valid input (non-empty name, units > 0, rate ≥ 0,
`bill_id` of an existing Bill), `/add` persists exactly one new BillItem
whose stored `amount` equals `units * rate`, and whenever the next `/`
read renders that bill, the new item (with those units, rate and amount)
is in the rendered item list. -/
theorem add_item_valid_persists (db : DB) (form : AddForm) (nm us rs bs : String)
    (u b : Int) (r : Rat)
    (hnm : form.item_name = some nm) (hnm0 : nm ≠ "")
    (hus : form.units = some us) (hu : pyInt? us = some u) (hu0 : 0 < u)
    (hrs : form.rate = some rs) (hr : pyFloat? rs = some r) (hr0 : 0 ≤ r)
    (hbs : form.bill_id = some bs) (hb : pyInt? bs = some b)
    (hbill : ∃ bl ∈ db.bills, (bl.id : Int) = b) :
    (add_item form db).bill_items =
      db.bill_items ++
        [{ id := db.next_item_id, name := nm, units := u, rate := r,
           amount := u * r, bill_id := b.toNat }] ∧
    (∀ bl items total, (index (add_item form db)).2 = IndexOutcome.view bl items total →
      bl.id = b.toNat →
      ({ id := db.next_item_id, name := nm, units := u, rate := r,
         amount := u * r } : ItemView) ∈ items) := by
  obtain ⟨ona, ou, ora, ob⟩ := form
  cases hnm
  cases hus
  cases hrs
  cases hbs
  have hany : db.bills.any (fun bl => (bl.id : Int) = b) = true := by
    rcases hbill with ⟨bl, hbl, hid⟩
    exact List.any_eq_true.mpr ⟨bl, hbl, by simp [hid]⟩
  have hadd : add_item ⟨some nm, some us, some rs, some bs⟩ db =
      { db with
        bill_items := db.bill_items ++
          [{ id := db.next_item_id, name := nm, units := u, rate := r,
             amount := u * r, bill_id := b.toNat }],
        next_item_id := db.next_item_id + 1 } := by
    simp [add_item, hu, hr, hb, hany]
  refine ⟨by rw [hadd], ?_⟩
  intro bl items total hv hblid
  have hitems := index_view_items _ bl items total hv
  rw [hitems, hadd, hblid]
  exact List.mem_map_of_mem toItemView
    (List.mem_filter.mpr ⟨List.mem_append_right _ (List.mem_singleton_self _), by simp⟩)

/-- Witness instantiating `add_item_valid_persists` with the spec's
scenario: 2 units at rate 350 on bill 1 yields a persisted amount of
700. -/
theorem add_item_valid_persists_witness :
    (add_item ⟨some ("A4 Plain Paper Ream"), some ("2"), some ("350.00"), some ("1")⟩
        dbOne).bill_items =
      [{ id := 1, name := "A4 Plain Paper Ream", units := 2, rate := 350,
         amount := 700, bill_id := 1 }] :=
  ((add_item_valid_persists dbOne
      ⟨some ("A4 Plain Paper Ream"), some ("2"), some ("350.00"), some ("1")⟩
      ("A4 Plain Paper Ream") ("2") ("350.00") ("1") 2 1 350
      rfl (by decide) rfl (by with_unfolding_all rfl) (by decide)
      rfl (by with_unfolding_all rfl) (of_decide_eq_true (by with_unfolding_all rfl))
      rfl (by with_unfolding_all rfl)
      ⟨billOne, (by decide), rfl⟩).1).trans (by with_unfolding_all rfl)

-- ### Claim C3

/-- C3 counterexample: an unknown `bill_id` on an allow-listed field
yields exactly the same 400 response (`clientError`) as a disallowed
field does — `/update_bill` has no distinct 404/NotFound failure. -/
theorem update_bill_no_notfound_counterexample :
    (update_bill ⟨some 99, some ("recipient"), some ("x")⟩ dbOne).2 =
      PatchOutcome.clientError ∧
    (update_bill ⟨some 1, some ("id"), some ("5")⟩ dbOne).2 =
      PatchOutcome.clientError ∧
    (update_bill ⟨some 99, some ("recipient"), some ("x")⟩ dbOne).1 = dbOne := by
  with_unfolding_all exact ⟨rfl, rfl, rfl⟩

/-- C3 amended: `update_bill` rejects a missing or disallowed field with
the 400 response, and an unknown `bill_id` with the SAME 400 response
(there is no distinct 404-equivalent); in every non-success outcome
(including the uncaught 500-class commit failures) no bill attribute is
changed. -/
theorem update_bill_failure_modes (data : PatchData) (db : DB) :
    ((∀ f, data.field = some f → f ∉ allowedFields) →
      update_bill data db = (db, PatchOutcome.clientError)) ∧
    (∀ f, data.field = some f → f ∈ allowedFields →
      (∀ bid, data.bill_id = some bid → ∀ bl ∈ db.bills, bl.id ≠ bid) →
      update_bill data db = (db, PatchOutcome.clientError)) ∧
    ((update_bill data db).2 ≠ PatchOutcome.success → (update_bill data db).1 = db) := by
  obtain ⟨obid, ofld, oval⟩ := data
  refine ⟨?_, ?_, ?_⟩
  · intro habs
    cases ofld with
    | none => simp [update_bill]
    | some f => simp [update_bill, habs f rfl]
  · intro f hf hmem habs
    cases hf
    simp only [update_bill]
    rw [if_pos hmem]
    cases obid with
    | none => rfl
    | some bid =>
      have hfind : db.bills.find? (fun bl => bl.id = bid) = none :=
        List.find?_eq_none.mpr (fun x hx => by simp [habs bid rfl x hx])
      simp [hfind]
  · intro hne
    cases ofld with
    | none => simp [update_bill]
    | some f =>
      by_cases hmem : f ∈ allowedFields
      · simp only [update_bill] at hne ⊢
        rw [if_pos hmem] at hne ⊢
        cases obid with
        | none => rfl
        | some bid =>
          rcases hfind : db.bills.find? (fun bl => bl.id = bid) with _ | b0
          · simp [hfind]
          · simp only [hfind] at hne ⊢
            by_cases hcl : f = "bill_display_id" ∧ displayClash db bid oval = true
            · rw [if_pos hcl]
            · rw [if_neg hcl] at hne ⊢
              by_cases hdt : f = "bill_date" ∧ oval = none
              · rw [if_pos hdt]
              · rw [if_neg hdt] at hne
                exact absurd rfl hne
      · simp [update_bill, hmem]

/-- Witness instantiating `update_bill_failure_modes` at the disallowed
field name `"id"` and at an unknown bill id. -/
theorem update_bill_failure_modes_witness :
    update_bill ⟨some 1, some ("id"), some ("5")⟩ dbOne = (dbOne, PatchOutcome.clientError) ∧
    update_bill ⟨some 99, some ("recipient"), some ("x")⟩ dbOne =
      (dbOne, PatchOutcome.clientError) :=
  ⟨(update_bill_failure_modes ⟨some 1, some ("id"), some ("5")⟩ dbOne).1
      (by intro f hf; cases hf; decide),
   (update_bill_failure_modes ⟨some 99, some ("recipient"), some ("x")⟩ dbOne).2.1
      ("recipient") rfl (by decide)
      (by intro bid hbid bl hbl; cases hbid; cases List.mem_singleton.mp hbl; decide)⟩

-- ### Structural lemmas for the bill-store invariants

theorem currentBill_mem (db : DB) (cb : Bill) (h : currentBill db = some cb) :
    cb ∈ db.bills := by
  have haux : ∀ (l : List Bill) (acc : Option Bill) (cb2 : Bill),
      l.foldl (fun acc b =>
        match acc with
        | none => some b
        | some a => if b.id > a.id then some b else some a) acc = some cb2 →
      acc = some cb2 ∨ cb2 ∈ l := by
    intro l
    induction l with
    | nil => intro acc cb2 h2; exact Or.inl h2
    | cons a as ih =>
      intro acc cb2 h2
      rw [List.foldl_cons] at h2
      rcases ih _ cb2 h2 with h3 | h3
      · cases acc with
        | none =>
          replace h3 : some a = some cb2 := h3
          injection h3 with he
          exact Or.inr (he ▸ List.mem_cons_self a as)
        | some x =>
          replace h3 : (if a.id > x.id then some a else some x) = some cb2 := h3
          by_cases hgt : a.id > x.id
          · rw [if_pos hgt] at h3
            injection h3 with he
            exact Or.inr (he ▸ List.mem_cons_self a as)
          · rw [if_neg hgt] at h3
            exact Or.inl h3
      · exact Or.inr (List.mem_cons_of_mem a h3)
  rcases haux db.bills none cb h with h2 | h2
  · cases h2
  · exact h2

theorem setBillField_id (b : Bill) (f : String) (v : Option String) :
    (setBillField b f v).id = b.id := by
  unfold setBillField
  split_ifs <;> rfl

theorem setBillField_display (b : Bill) (v : Option String) :
    (setBillField b ("bill_display_id") v).bill_display_id = v := by
  unfold setBillField
  rw [if_pos rfl]

theorem setBillField_display_of_ne (b : Bill) (f : String) (v : Option String)
    (hf : f ≠ "bill_display_id") :
    (setBillField b f v).bill_display_id = b.bill_display_id := by
  unfold setBillField
  rw [if_neg hf]
  split_ifs <;> rfl

theorem new_bill_cases (today : String) (db : DB) :
    (new_bill today db).1 = db ∨
    ((∀ o ∈ db.bills, o.bill_display_id ≠ some (Nat.repr db.next_bill_id)) ∧
      (new_bill today db).1 =
        { db with
          bills := db.bills ++
            [{ id := db.next_bill_id,
               bill_display_id := some (Nat.repr db.next_bill_id),
               bill_date := some today, recipient := none, prepared_by := none,
               checked_by := none, fic_reprography := none, job_description := none }],
          next_bill_id := db.next_bill_id + 1 }) := by
  simp only [new_bill]
  by_cases h1 : db.bills.any (fun o => o.bill_display_id = some ("")) = true
  · left
    rw [if_pos h1]
  · rw [if_neg h1]
    by_cases h2 : db.bills.any
        (fun o => o.bill_display_id = some (Nat.repr db.next_bill_id)) = true
    · left
      rw [if_pos h2]
    · right
      refine ⟨?_, ?_⟩
      · intro o ho hoe
        exact h2 (List.any_eq_true.mpr ⟨o, ho, by simp [hoe]⟩)
      · rw [if_neg h2]

theorem add_item_frame (form : AddForm) (db : DB) :
    (add_item form db).bills = db.bills ∧
    (add_item form db).next_bill_id = db.next_bill_id := by
  unfold add_item
  split
  · split
    · split <;> exact ⟨rfl, rfl⟩
    · exact ⟨rfl, rfl⟩
  · exact ⟨rfl, rfl⟩

theorem create_product_frame (data : ProductData) (db : DB) :
    (create_product data db).1.bills = db.bills ∧
    (create_product data db).1.next_bill_id = db.next_bill_id := by
  unfold create_product
  split
  · split
    · split <;> exact ⟨rfl, rfl⟩
    · exact ⟨rfl, rfl⟩
  · exact ⟨rfl, rfl⟩

theorem update_product_frame (code : String) (data : UpdateData) (db : DB) :
    (update_product code data db).1.bills = db.bills ∧
    (update_product code data db).1.next_bill_id = db.next_bill_id := by
  unfold update_product
  split
  · exact ⟨rfl, rfl⟩
  · split
    · exact ⟨rfl, rfl⟩
    · split <;> exact ⟨rfl, rfl⟩

theorem delete_product_frame (code : String) (db : DB) :
    (delete_product code db).1.bills = db.bills ∧
    (delete_product code db).1.next_bill_id = db.next_bill_id := by
  unfold delete_product
  split
  · exact ⟨rfl, rfl⟩
  · split <;> exact ⟨rfl, rfl⟩

theorem billsOk_congr (db db2 : DB) (hb : db2.bills = db.bills)
    (hn : db2.next_bill_id = db.next_bill_id) (hok : BillsOk db) : BillsOk db2 := by
  obtain ⟨h1, h2, h3⟩ := hok
  refine ⟨?_, ?_, ?_⟩
  · rw [hb]
    exact h1
  · rw [hb, hn]
    exact h2
  · rw [hb]
    exact h3

theorem billsOk_updateFirst (db : DB) (bid : Nat) (g : Bill → Bill)
    (hok : BillsOk db)
    (hid : ∀ b ∈ db.bills, b.id = bid → (g b).id = b.id)
    (hdisp : ∀ b ∈ db.bills, b.id = bid → ∀ s, (g b).bill_display_id = some s →
      (b.bill_display_id = some s ∨
        ∀ o ∈ db.bills, o.id ≠ bid → o.bill_display_id ≠ some s)) :
    BillsOk { db with bills := updateFirst (fun b => b.id = bid) g db.bills } := by
  obtain ⟨hnd, hbound, hdis⟩ := hok
  rw [updateFirst_eq_map_of_nodup g bid db.bills hnd]
  have hgid : ∀ b ∈ db.bills, ((if b.id = bid then g b else b) : Bill).id = b.id := by
    intro b hb
    by_cases hb2 : b.id = bid
    · rw [if_pos hb2]
      exact hid b hb hb2
    · rw [if_neg hb2]
  have hmapid : (db.bills.map (fun b => if b.id = bid then g b else b)).map
      (fun bl => bl.id) = db.bills.map (fun bl => bl.id) := by
    rw [List.map_map]
    exact List.map_congr_left (fun b hb => hgid b hb)
  refine ⟨?_, ?_, ?_⟩
  · show ((db.bills.map (fun b => if b.id = bid then g b else b)).map
      (fun bl => bl.id)).Nodup
    rw [hmapid]
    exact hnd
  · show ∀ bl ∈ db.bills.map (fun b => if b.id = bid then g b else b),
      bl.id < db.next_bill_id
    intro bl hbl
    rcases List.mem_map.mp hbl with ⟨b0, hb0, rfl⟩
    rw [hgid b0 hb0]
    exact hbound b0 hb0
  · show ∀ b1 ∈ db.bills.map (fun b => if b.id = bid then g b else b),
      ∀ b2 ∈ db.bills.map (fun b => if b.id = bid then g b else b),
      b1.id ≠ b2.id → ∀ s : String, b1.bill_display_id = some s →
        b2.bill_display_id ≠ some s
    intro b1 h1 b2 h2 hne s hs1
    rcases List.mem_map.mp h1 with ⟨a1, ha1, rfl⟩
    rcases List.mem_map.mp h2 with ⟨a2, ha2, rfl⟩
    have hne0 : a1.id ≠ a2.id := by
      intro he
      exact hne (by rw [hgid a1 ha1, hgid a2 ha2, he])
    by_cases hc1 : a1.id = bid
    · rw [if_pos hc1] at hs1
      have hc2 : a2.id ≠ bid := fun h => hne0 (by rw [hc1, h])
      rw [if_neg hc2]
      rcases hdisp a1 ha1 hc1 s hs1 with hold | hnone
      · exact hdis a1 ha1 a2 ha2 hne0 s hold
      · exact hnone a2 ha2 hc2
    · rw [if_neg hc1] at hs1
      by_cases hc2 : a2.id = bid
      · rw [if_pos hc2]
        intro hs2
        rcases hdisp a2 ha2 hc2 s hs2 with hold | hnone
        · exact hdis a1 ha1 a2 ha2 hne0 s hs1 hold
        · exact hnone a1 ha1 hc1 hs1
      · rw [if_neg hc2]
        exact hdis a1 ha1 a2 ha2 hne0 s hs1

theorem billsOk_append (db : DB) (nb : Bill) (hok : BillsOk db)
    (hidfresh : nb.id = db.next_bill_id)
    (hfresh : ∀ s, nb.bill_display_id = some s →
      ∀ o ∈ db.bills, o.bill_display_id ≠ some s) :
    BillsOk { db with bills := db.bills ++ [nb],
                      next_bill_id := db.next_bill_id + 1 } := by
  obtain ⟨hnd, hbound, hdis⟩ := hok
  refine ⟨?_, ?_, ?_⟩
  · show ((db.bills ++ [nb]).map (fun bl => bl.id)).Nodup
    rw [List.map_append, List.nodup_append]
    refine ⟨hnd, List.nodup_singleton _, ?_⟩
    intro x hx hx2
    rcases List.mem_map.mp hx with ⟨o, ho, rfl⟩
    have hxe : o.id = nb.id := by simpa using hx2
    have := hbound o ho
    omega
  · show ∀ bl ∈ db.bills ++ [nb], bl.id < db.next_bill_id + 1
    intro bl hbl
    rcases List.mem_append.mp hbl with hb | hb
    · have := hbound bl hb
      omega
    · rcases List.mem_singleton.mp hb with rfl
      omega
  · show ∀ b1 ∈ db.bills ++ [nb], ∀ b2 ∈ db.bills ++ [nb],
      b1.id ≠ b2.id → ∀ s : String, b1.bill_display_id = some s →
        b2.bill_display_id ≠ some s
    intro b1 h1 b2 h2 hne s hs1
    rcases List.mem_append.mp h1 with hb1 | hb1 <;>
      rcases List.mem_append.mp h2 with hb2 | hb2
    · exact hdis b1 hb1 b2 hb2 hne s hs1
    · rcases List.mem_singleton.mp hb2 with rfl
      intro hs2
      exact hfresh s hs2 b1 hb1 hs1
    · rcases List.mem_singleton.mp hb1 with rfl
      exact hfresh s hs1 b2 hb2
    · rcases List.mem_singleton.mp hb1 with rfl
      rcases List.mem_singleton.mp hb2 with rfl
      exact absurd rfl hne

theorem billsOk_new_bill (today : String) (db : DB) (hok : BillsOk db) :
    BillsOk (new_bill today db).1 := by
  rcases new_bill_cases today db with h | ⟨hfresh, h⟩
  · rw [h]
    exact hok
  · rw [h]
    apply billsOk_append db _ hok rfl
    intro s hs o ho
    replace hs : some (Nat.repr db.next_bill_id) = some s := hs
    injection hs with he
    exact he ▸ hfresh o ho

theorem billsOk_index (db : DB) (hok : BillsOk db) : BillsOk (index db).1 := by
  rcases hcb : currentBill db with _ | cb
  · have h : (index db).1 = db := by simp [index, hcb]
    rw [h]
    exact hok
  · by_cases hw : (backfillDisplayId cb).2 = true
    · by_cases hcl : displayClash db cb.id (backfillDisplayId cb).1.bill_display_id = true
      · have h : (index db).1 = db := by
          simp only [index, hcb]
          rw [if_pos hw, if_pos hcl]
        rw [h]
        exact hok
      · have h : (index db).1 = { db with bills := updateFirst (fun o => o.id = cb.id) (fun _ => (backfillDisplayId cb).1) db.bills } := by
          simp only [index, hcb]
          rw [if_pos hw, if_neg hcl]
        rw [h]
        apply billsOk_updateFirst db cb.id _ hok
        · intro b hb hbid
          rw [backfillDisplayId_id]
          exact hbid.symm
        · intro b hb hbid s hs
          right
          intro o ho hone hoe
          apply hcl
          have hdc : displayClash db cb.id (some s) = true := by
            simp only [displayClash]
            exact List.any_eq_true.mpr ⟨o, ho, by simp [hone, hoe]⟩
          rw [show (backfillDisplayId cb).1.bill_display_id = some s from hs]
          exact hdc
    · have h : (index db).1 = db := by
        simp only [index, hcb]
        rw [if_neg hw]
      rw [h]
      exact hok

theorem billsOk_update_bill (data : PatchData) (db : DB) (hok : BillsOk db) :
    BillsOk (update_bill data db).1 := by
  obtain ⟨obid, ofld, oval⟩ := data
  cases ofld with
  | none => exact hok
  | some f =>
    by_cases hmem : f ∈ allowedFields
    · simp only [update_bill]
      rw [if_pos hmem]
      cases obid with
      | none => exact hok
      | some bid =>
        rcases hfind : db.bills.find? (fun b => b.id = bid) with _ | b0
        · simp only [hfind]
          exact hok
        · simp only [hfind]
          by_cases hcl : f = "bill_display_id" ∧ displayClash db bid oval = true
          · rw [if_pos hcl]
            exact hok
          · rw [if_neg hcl]
            by_cases hdt : f = "bill_date" ∧ oval = none
            · rw [if_pos hdt]
              exact hok
            · rw [if_neg hdt]
              apply billsOk_updateFirst db bid _ hok
              · intro b hb hbid
                exact setBillField_id b f oval
              · intro b hb hbid s hs
                by_cases hfd : f = "bill_display_id"
                · subst hfd
                  rw [setBillField_display] at hs
                  right
                  intro o ho hone hoe
                  apply hcl
                  refine ⟨rfl, ?_⟩
                  rw [hs]
                  simp only [displayClash]
                  exact List.any_eq_true.mpr ⟨o, ho, by simp [hone, hoe]⟩
                · rw [setBillField_display_of_ne b f oval hfd] at hs
                  exact Or.inl hs
    · simp only [update_bill]
      rw [if_neg hmem]
      exact hok

theorem applyAppOp_billsOk (db : DB) (op : AppOp) (hok : BillsOk db) :
    BillsOk (applyAppOp db op) := by
  cases op with
  | pageIndex => exact billsOk_index db hok
  | pageNewBill today => exact billsOk_new_bill today db hok
  | pageAddItem form =>
    exact billsOk_congr db _ (add_item_frame form db).1 (add_item_frame form db).2 hok
  | pageUpdateBill data => exact billsOk_update_bill data db hok
  | apiCreateProduct data =>
    exact billsOk_congr db _ (create_product_frame data db).1
      (create_product_frame data db).2 hok
  | apiUpdateProduct code data =>
    exact billsOk_congr db _ (update_product_frame code data db).1
      (update_product_frame code data db).2 hok
  | apiDeleteProduct code =>
    exact billsOk_congr db _ (delete_product_frame code db).1
      (delete_product_frame code db).2 hok

-- ### Claim C8

/-- C8: the lazy display-id backfill is idempotent — applying it to an
already-backfilled bill returns the same `display_id` and reports no
write; consequently every bill rendered by `index` has a non-falsy
(non-NULL, non-empty) `bill_display_id`. -/
theorem backfill_idempotent :
    (∀ b : Bill,
      backfillDisplayId (backfillDisplayId b).1 = ((backfillDisplayId b).1, false)) ∧
    (∀ db bl items total, (index db).2 = IndexOutcome.view bl items total →
      displayFalsy bl.bill_display_id = false) := by
  have honce : ∀ b : Bill, displayFalsy (backfillDisplayId b).1.bill_display_id = false := by
    intro b
    unfold backfillDisplayId
    by_cases hb : displayFalsy b.bill_display_id = true
    · rw [if_pos hb]
      exact displayFalsy_repr b.id
    · rw [if_neg hb]
      exact Bool.eq_false_iff.mpr hb
  constructor
  · intro b
    by_cases hb : displayFalsy b.bill_display_id = true
    · have h1 : backfillDisplayId b =
          ({ b with bill_display_id := some (Nat.repr b.id) }, true) := by
        unfold backfillDisplayId
        rw [if_pos hb]
      rw [h1]
      show backfillDisplayId { b with bill_display_id := some (Nat.repr b.id) } =
        ({ b with bill_display_id := some (Nat.repr b.id) }, false)
      unfold backfillDisplayId
      rw [if_neg (by simp [displayFalsy_repr])]
    · have h1 : backfillDisplayId b = (b, false) := by
        unfold backfillDisplayId
        rw [if_neg hb]
      rw [h1]
      show backfillDisplayId b = (b, false)
      exact h1
  · intro db bl items total h
    rcases hcb : currentBill db with _ | cb
    · simp [index, hcb] at h
    · simp only [index, hcb] at h
      by_cases hw : (backfillDisplayId cb).2 = true
      · rw [if_pos hw] at h
        by_cases hcl : displayClash db cb.id (backfillDisplayId cb).1.bill_display_id = true
        · rw [if_pos hcl] at h
          cases h
        · rw [if_neg hcl] at h
          replace h : IndexOutcome.view (backfillDisplayId cb).1
              ((billItemsOf { db with
                  bills := updateFirst (fun o => o.id = cb.id)
                    (fun _ => (backfillDisplayId cb).1) db.bills } cb.id).map toItemView)
              (computeTotal ((billItemsOf { db with
                  bills := updateFirst (fun o => o.id = cb.id)
                    (fun _ => (backfillDisplayId cb).1) db.bills } cb.id).map toItemView)) =
                IndexOutcome.view bl items total := h
          injection h with h1 h2 h3
          rw [← h1]
          exact honce cb
      · rw [if_neg hw] at h
        replace h : IndexOutcome.view cb ((billItemsOf db cb.id).map toItemView)
            (computeTotal ((billItemsOf db cb.id).map toItemView)) =
              IndexOutcome.view bl items total := h
        injection h with h1 h2 h3
        rw [← h1]
        have hnw : displayFalsy cb.bill_display_id = false := by
          by_contra hc
          have : displayFalsy cb.bill_display_id = true := by
            revert hc
            cases displayFalsy cb.bill_display_id <;> simp
          apply hw
          unfold backfillDisplayId
          rw [if_pos this]
        exact hnw

/-- Witness instantiating `backfill_idempotent` on a concrete view of
`dbOne`. -/
theorem backfill_idempotent_witness :
    displayFalsy billOne.bill_display_id = false :=
  backfill_idempotent.2 dbOne billOne [] 0 (by with_unfolding_all rfl)

-- ### Claim C9

/-- C9: the rendered total is the sum of the items' stored `amount`
fields — zero on the empty list, unchanged by arbitrary rewrites of the
`units`/`rate` fields (it never recomputes `units * rate`), and
invariant under permutation of the item list. -/
theorem computeTotal_spec :
    computeTotal [] = 0 ∧
    (∀ items : List ItemView, computeTotal items = (items.map (fun i => i.amount)).sum) ∧
    (∀ (items : List ItemView) (f : ItemView → Int) (g : ItemView → Rat),
      computeTotal (items.map (fun i => { i with units := f i, rate := g i })) =
        computeTotal items) ∧
    (∀ items1 items2 : List ItemView, items1.Perm items2 →
      computeTotal items1 = computeTotal items2) := by
  refine ⟨rfl, fun items => rfl, ?_, ?_⟩
  · intro items f g
    unfold computeTotal
    rw [List.map_map]
    rfl
  · intro items1 items2 hperm
    unfold computeTotal
    exact (hperm.map (fun i => i.amount)).sum_eq

/-- Witness instantiating the permutation clause of `computeTotal_spec`
on a two-element swap. -/
theorem computeTotal_spec_witness :
    computeTotal [⟨1, "a", 1, 2, 2⟩, ⟨2, "b", 1, 3, 3⟩] =
      computeTotal [⟨2, "b", 1, 3, 3⟩, ⟨1, "a", 1, 2, 2⟩] :=
  computeTotal_spec.2.2.2 _ _
    (List.Perm.swap (⟨2, "b", 1, 3, 3⟩ : ItemView) (⟨1, "a", 1, 2, 2⟩ : ItemView) [])

-- ### Claim C7

/-- Display ids stay equal to the stringified row id across an `index`
read. -/
theorem index_repr_displays (db : DB)
    (h : ∀ bl ∈ db.bills, bl.bill_display_id = some (Nat.repr bl.id)) :
    ∀ bl ∈ (index db).1.bills, bl.bill_display_id = some (Nat.repr bl.id) := by
  rcases hcb : currentBill db with _ | cb
  · have he : (index db).1 = db := by simp [index, hcb]
    rw [he]
    exact h
  · by_cases hw : (backfillDisplayId cb).2 = true
    · by_cases hcl : displayClash db cb.id (backfillDisplayId cb).1.bill_display_id = true
      · have he : (index db).1 = db := by
          simp only [index, hcb]
          rw [if_pos hw, if_pos hcl]
        rw [he]
        exact h
      · have he : (index db).1 = { db with bills := updateFirst (fun o => o.id = cb.id) (fun _ => (backfillDisplayId cb).1) db.bills } := by
          simp only [index, hcb]
          rw [if_pos hw, if_neg hcl]
        rw [he]
        intro bl hbl
        rcases mem_updateFirst _ _ db.bills bl hbl with hmem | ⟨x, hx, hpx, hq⟩
        · exact h bl hmem
        · rw [hq]
          show (backfillDisplayId cb).1.bill_display_id =
            some (Nat.repr (backfillDisplayId cb).1.id)
          have hcbm := currentBill_mem db cb hcb
          by_cases hf : displayFalsy cb.bill_display_id = true
          · have hbf : backfillDisplayId cb =
                ({ cb with bill_display_id := some (Nat.repr cb.id) }, true) := by
              unfold backfillDisplayId
              rw [if_pos hf]
            rw [hbf]
          · have hbf : backfillDisplayId cb = (cb, false) := by
              unfold backfillDisplayId
              rw [if_neg hf]
            rw [hbf]
            exact h cb hcbm
    · have he : (index db).1 = db := by
        simp only [index, hcb]
        rw [if_neg hw]
      rw [he]
      exact h

/-- One `createBill` or backfilling read preserves `DisplayInv`. -/
theorem applyBillPageOp_displayInv (db : DB) (op : BillPageOp) (h : DisplayInv db) :
    DisplayInv (applyBillPageOp db op) := by
  obtain ⟨hok, hrepr⟩ := h
  cases op with
  | createBill today =>
    refine ⟨billsOk_new_bill today db hok, ?_⟩
    show ∀ bl ∈ (new_bill today db).1.bills, bl.bill_display_id = some (Nat.repr bl.id)
    rcases new_bill_cases today db with h2 | ⟨_, h2⟩
    · rw [h2]
      exact hrepr
    · rw [h2]
      intro bl hbl
      rcases List.mem_append.mp hbl with hb | hb
      · exact hrepr bl hb
      · rcases List.mem_singleton.mp hb with rfl
        rfl
  | readIndex =>
    exact ⟨billsOk_index db hok, index_repr_displays db hrepr⟩

/-- C7: starting from an empty Bill store, after any sequence of
`createBill` (`/new`) and display-backfilling reads (`/`), the assigned
`display_id` values of distinct bills are pairwise distinct, and at most
one bill has an empty/unassigned display id (in this revision, in fact
none: `/new` already assigns `str(id)` before committing). -/
theorem display_id_unique_after_ops (ops : List BillPageOp) (db : DB)
    (h0 : db.bills = []) :
    (∀ b1 ∈ (ops.foldl applyBillPageOp db).bills,
      ∀ b2 ∈ (ops.foldl applyBillPageOp db).bills,
        b1 ≠ b2 → b1.bill_display_id ≠ b2.bill_display_id) ∧
    (ops.foldl applyBillPageOp db).bills.countP
      (fun bl => displayFalsy bl.bill_display_id) ≤ 1 := by
  have hbase : DisplayInv db := by
    refine ⟨⟨?_, ?_, ?_⟩, ?_⟩ <;> rw [h0] <;> simp
  have hinv : ∀ (ops2 : List BillPageOp) (db2 : DB), DisplayInv db2 →
      DisplayInv (ops2.foldl applyBillPageOp db2) := by
    intro ops2
    induction ops2 with
    | nil =>
      intro db2 h2
      simpa using h2
    | cons op rest ih =>
      intro db2 h2
      rw [List.foldl_cons]
      exact ih _ (applyBillPageOp_displayInv db2 op h2)
  obtain ⟨⟨hnd, hbound, hdis⟩, hrepr⟩ := hinv ops db hbase
  constructor
  · intro b1 h1 b2 h2 hne heq
    have hidne : b1.id ≠ b2.id :=
      fun hid => hne (List.inj_on_of_nodup_map hnd h1 h2 hid)
    rw [hrepr b1 h1, hrepr b2 h2] at heq
    injection heq with he
    exact hidne (repr_injective he)
  · have hz : (ops.foldl applyBillPageOp db).bills.countP
        (fun bl => displayFalsy bl.bill_display_id) = 0 := by
      rw [List.countP_eq_zero]
      intro b hb
      rw [hrepr b hb]
      simp [displayFalsy_repr]
    omega

/-- Witness instantiating `display_id_unique_after_ops` on a three-call
sequence from the seeded (bill-less) store. -/
theorem display_id_unique_after_ops_witness :
    (([BillPageOp.createBill ("2026-01-01"), BillPageOp.readIndex,
       BillPageOp.createBill ("2026-01-02")]).foldl applyBillPageOp seededDB).bills.countP
      (fun bl => displayFalsy bl.bill_display_id) ≤ 1 :=
  (display_id_unique_after_ops
    [BillPageOp.createBill ("2026-01-01"), BillPageOp.readIndex,
     BillPageOp.createBill ("2026-01-02")] seededDB rfl).2

-- ### Claim C10

/-- C10: `display_id` uniqueness is preserved by every application
request, `patchField` included — in any state reachable from an empty
bill store, no two bills with different ids hold the same non-NULL
`bill_display_id`; and a `patchField` that would set a bill's display id
to a value some other bill already holds aborts at the store with the
uncaught unique-index violation (500-class server error, not a 400
validation error), leaving the store unchanged. -/
theorem display_unique_reachable (ops : List AppOp) (db : DB) (h0 : db.bills = []) :
    (∀ b1 ∈ (ops.foldl applyAppOp db).bills, ∀ b2 ∈ (ops.foldl applyAppOp db).bills,
      b1 ≠ b2 → ∀ s : String, b1.bill_display_id = some s →
        b2.bill_display_id ≠ some s) ∧
    (∀ (db2 : DB) (bid : Nat) (v : String) (bl : Bill),
      db2.bills.find? (fun b => b.id = bid) = some bl →
      displayClash db2 bid (some v) = true →
      update_bill ⟨some bid, some ("bill_display_id"), some v⟩ db2 =
        (db2, PatchOutcome.serverError)) := by
  constructor
  · have hbase : BillsOk db := by
      refine ⟨?_, ?_, ?_⟩ <;> rw [h0] <;> simp
    have hinv : ∀ (ops2 : List AppOp) (db2 : DB), BillsOk db2 →
        BillsOk (ops2.foldl applyAppOp db2) := by
      intro ops2
      induction ops2 with
      | nil =>
        intro db2 h2
        simpa using h2
      | cons op rest ih =>
        intro db2 h2
        rw [List.foldl_cons]
        exact ih _ (applyAppOp_billsOk db2 op h2)
    obtain ⟨hnd, hbound, hdis⟩ := hinv ops db hbase
    intro b1 h1 b2 h2 hne s hs1
    have hidne : b1.id ≠ b2.id :=
      fun hid => hne (List.inj_on_of_nodup_map hnd h1 h2 hid)
    exact hdis b1 h1 b2 h2 hidne s hs1
  · intro db2 bid v bl hfind hcl
    simp only [update_bill]
    rw [if_pos (by decide : ("bill_display_id" : String) ∈ allowedFields)]
    simp only [hfind]
    rw [if_pos ⟨trivial, hcl⟩]

/-- Witness instantiating `display_unique_reachable`: patching bill 1's
display id to `"2"` while bill 2 holds `"2"` is a 500-class store
failure with the store unchanged. -/
theorem display_unique_reachable_witness :
    update_bill ⟨some 1, some ("bill_display_id"), some ("2")⟩ dbTwo =
      (dbTwo, PatchOutcome.serverError) :=
  (display_unique_reachable [] seededDB rfl).2 dbTwo 1 ("2") billOne
    (by decide) (by decide)

end Billing
